import Mathlib

/-!
Verification development for the AirspaceConverter conversion orchestration
engine (`src/AirspaceConverter.cpp`).  The C++ core is shallowly embedded:
pure helpers become Lean functions, the stateful orchestrator becomes explicit
state passing over `ConverterState`, and the out-of-scope collaborators
(format readers/writers, the external map compiler, the filesystem) are
supplied as a record of functions (`Env`), exactly the boolean/append
interface the spec assigns to them.
-/

set_option autoImplicit false

/-! ## Path model

The C++ code manipulates filenames through `boost::filesystem::path`:
`extension()`, `stem()`, `replace_extension()` and `operator/`.  We model a
path as its string, with the filename being the part after the last `/`.
Boost's `extension()` is: if the filename contains a dot and is not solely
`.` or `..`, the substring of the filename starting at the last dot,
otherwise empty.  `replace_extension(e)` removes that suffix and appends `e`.
-/

def afterLastSlash (l : List Char) : List Char :=
  (l.reverse.takeWhile (fun c => c != '/')).reverse

def extCore (l : List Char) : List Char :=
  let f := afterLastSlash l
  if f = ['.'] ∨ f = ['.', '.'] ∨ '.' ∉ f then []
  else '.' :: (f.reverse.takeWhile (fun c => c != '.')).reverse

def stemCore (l : List Char) : List Char :=
  let f := afterLastSlash l
  f.take (f.length - (extCore l).length)

def replaceExtCore (l e : List Char) : List Char :=
  l.take (l.length - (extCore l).length) ++ e

def extensionOf (s : String) : String := ⟨extCore s.data⟩

def stemOf (s : String) : String := ⟨stemCore s.data⟩

def replaceExtension (s e : String) : String := ⟨replaceExtCore s.data e.data⟩

/-- Boost filesystem `operator/`: join with a separator unless one is
already present (or the left side is empty). -/
def joinPath (d n : String) : String :=
  if d = "" then n
  else if d.data.getLast? = some '/' then d ++ n
  else d ++ "/" ++ n

/-- Model of `boost::iequals`: case-insensitive (ASCII) string equality. -/
def iequalsL (a b : List Char) : Bool :=
  a.map Char.toLower == b.map Char.toLower

def iequals (a b : String) : Bool := iequalsL a.data b.data

/-! ## Type resolver -/

/-- The `AirspaceConverter::OutputType` enumeration. -/
inductive OutputType where
  | KMZ_Format
  | OpenAir_Format
  | SeeYou_Format
  | Polish_Format
  | Garmin_Format
  | Unknown_Format
deriving DecidableEq

open OutputType

/-- Model of `AirspaceConverter::DetermineType`: resolve the output type from the
filename's extension (case-insensitively); an empty filename defaults to KMZ,
an extension that is not `.kmz` and matches none of the four known formats
yields `Unknown_Format`. -/
def DetermineType (filename : String) : OutputType :=
  if filename = "" then KMZ_Format
  else
    let outputExt := extensionOf filename
    if iequals outputExt ".kmz" then KMZ_Format
    else if iequals outputExt ".txt" then OpenAir_Format
    else if iequals outputExt ".cup" then SeeYou_Format
    else if iequals outputExt ".mp" then Polish_Format
    else if iequals outputExt ".img" then Garmin_Format
    else Unknown_Format

/-- Model of `AirspaceConverter::PutTypeExtension`: rewrite the filename's extension to
the canonical one for the given type; `none` models the `false` return (empty
filename, or `Unknown_Format` — the `default:` branch asserts and falls
through to the `Unknown_Format` case). -/
def PutTypeExtension (type : OutputType) (filename : String) : Option String :=
  if filename = "" then none
  else
    match type with
    | KMZ_Format => some (replaceExtension filename ".kmz")
    | OpenAir_Format => some (replaceExtension filename ".txt")
    | SeeYou_Format => some (replaceExtension filename ".cup")
    | Polish_Format => some (replaceExtension filename ".mp")
    | Garmin_Format => some (replaceExtension filename ".img")
    | Unknown_Format => none

/-! ## Altitude parser

`AirspaceConverter::ParseAltitude` scans the text as alternating runs of
digit and non-digit characters (splitting also on the separators space and
`=`), classifying each run.  The mutable locals of the C++ function become
the fields of `PState`; the `for` loop over the index `i` becomes the
fuel-indexed recursion `parseLoop` (the fuel `l + 1` dominates the loop's
at-most-`l - 1` iterations, since `i` strictly increases). -/

/-- The data-model altitude: exactly one representation mode is active;
flight levels and unlimited altitudes are implicitly AMSL-referenced. -/
inductive Altitude where
  | unlimited
  | flightLevel (fl : Int)
  | altFt (ft : Int) (isAMSL : Bool)
  | altMt (mt : Int) (isAMSL : Bool)
deriving DecidableEq

/-- The airspace attributes this core touches: the parser assigns one of the
two altitude slots (`none` models a still-unset altitude). -/
structure Airspace where
  name : String := ""
  base : Option Altitude := none
  top : Option Altitude := none
deriving DecidableEq

/-- The local state of `ParseAltitude`, one field per C++ local. -/
structure PState where
  value : Nat := 0
  isFL : Bool := false
  isAMSL : Bool := true
  valueFound : Bool := false
  typeFound : Bool := false
  isInFeet : Bool := true
  unitFound : Bool := false
  isUnlimited : Bool := false
deriving DecidableEq

def initPState : PState := {}

/-- Model of `std::stod` as exercised by this parser: every numeric run starts with a
digit (`isNumber` holds exactly when the run's first character is a digit),
so `stod` returns the value of the leading digit prefix; `none` models the
caught exception when no conversion is possible. -/
def stodNat (str : List Char) : Option Nat :=
  let ds := str.takeWhile Char.isDigit
  if ds.isEmpty then none
  else some (ds.foldl (fun n c => 10 * n + (c.toNat - '0'.toNat)) 0)

/-- One run of the scan: the body of the boundary `if` in the C++ loop.
`none` models the early `return false` paths. -/
def processRun (isNumber : Bool) (str : List Char) (st : PState) : Option PState :=
  if isNumber then
    if !st.valueFound then
      match stodNat str with
      | none => none
      | some v => some { st with value := v, valueFound := true }
    else none
  else
    if !st.typeFound then
      if st.valueFound then
        if iequalsL str "AGL".data ∨ iequalsL str "AGND".data ∨ iequalsL str "ASFC".data ∨
            iequalsL str "GND".data ∨ iequalsL str "SFC".data then
          some { st with isAMSL := false, typeFound := true }
        else if iequalsL str "MSL".data ∨ iequalsL str "AMSL".data ∨ iequalsL str "ALT".data then
          some { st with typeFound := true }
        else if !st.unitFound then
          if iequalsL str "FT".data ∨ iequalsL str "F".data then
            some { st with unitFound := true }
          else if iequalsL str "M".data ∨ iequalsL str "MT".data then
            some { st with isInFeet := false, unitFound := true }
          else some st
        else some st
      else
        if iequalsL str "FL".data then
          some { st with isFL := true, typeFound := true }
        else if iequalsL str "GND".data ∨ iequalsL str "SFC".data then
          some { st with isAMSL := false, typeFound := true, valueFound := true, unitFound := true }
        else if iequalsL str "MSL".data ∨ iequalsL str "AMSL".data then
          some { st with typeFound := true, valueFound := true, unitFound := true }
        else if iequalsL str "UNLIM".data ∨ iequalsL str "UNLIMITED".data ∨ iequalsL str "UNL".data then
          some { st with typeFound := true, valueFound := true, unitFound := true, isUnlimited := true }
        else some st
    else
      -- `else if (!unitFound && !typeFound) return false;` — reached only
      -- with `typeFound` true, kept as in the source.
      if !st.unitFound && !st.typeFound then none else some st

/-- The scan loop of `ParseAltitude`; `i` is the loop index, `s` the start of
the current run, `isNumber` the current run's class. -/
def parseLoop (fuel : Nat) (text : List Char) (l i s : Nat) (isNumber : Bool)
    (st : PState) : Option PState :=
  match fuel with
  | 0 => some st
  | fuel + 1 =>
    if i < l then
      let c := text.getD i ' '
      let isLast := i == l - 1
      let isSep := c == ' ' || c == '='
      if (c.isDigit != isNumber) || isSep || isLast then
        let str := if isLast then text.drop s else (text.drop s).take (i - s)
        match processRun isNumber str st with
        | none => none
        | some st2 =>
          if st2.valueFound && st2.typeFound && st2.unitFound then some st2
          else if isSep then
            let i2 := i + 1
            let isNumber2 := if i2 < l then (text.getD i2 ' ').isDigit else isNumber
            parseLoop fuel text l (i2 + 1) i2 isNumber2 st2
          else parseLoop fuel text l (i + 1) i (!isNumber) st2
      else parseLoop fuel text l (i + 1) s isNumber st
    else some st

/-- Model of `ParseAltitude` up to (but not including) the `Altitude` construction:
`none` models every `return false` path. -/
def ParseAltitudeState (text : String) : Option PState :=
  if text.data.isEmpty then none
  else
    let l := text.data.length
    match parseLoop (l + 1) text.data l 1 0 (text.data.getD 0 ' ').isDigit initPState with
    | none => none
    | some st => if st.valueFound then some st else none

/-- The `Altitude` constructed from the final parser state. -/
def altitudeOf (st : PState) : Altitude :=
  if st.isUnlimited then .unlimited
  else if st.isFL then .flightLevel (Int.ofNat st.value)
  else if st.isInFeet then .altFt (Int.ofNat st.value) st.isAMSL
  else .altMt (Int.ofNat st.value) st.isAMSL

def parseAltitudeValue (text : String) : Option Altitude :=
  (ParseAltitudeState text).map altitudeOf

/-- Model of `AirspaceConverter::ParseAltitude`: on success assign the altitude to the
requested slot of the airspace; on failure (`false`) the airspace is
untouched. -/
def ParseAltitude (text : String) (isTop : Bool) (airspace : Airspace) :
    Bool × Airspace :=
  match ParseAltitudeState text with
  | none => (false, airspace)
  | some st =>
    let alt := altitudeOf st
    (true, if isTop then { airspace with top := some alt }
           else { airspace with base := some alt })


/-! ## Conversion orchestrator

The collections are the `std::multimap`s of the C++ class, modelled as
association lists keyed by the category code (entry order abstracts the
multimap's bucket order; no property below depends on it).  The format
readers and writers, the external map compiler and the filesystem are the
out-of-scope collaborators; they enter as the `Env` record, carrying exactly
the boolean-success/append interface the spec gives them. -/

/-- A waypoint/airfield as this core sees it: an opaque identity. -/
structure Waypoint where
  name : String
deriving DecidableEq

/-- One directory entry as observed through `boost::filesystem`'s directory
iterator: its path, whether it is a regular file, and its size. -/
structure DirEntry where
  path : String
  isRegularFile : Bool
  size : Nat
deriving DecidableEq

/-- The collaborators of the orchestrator.  Readers yield the entries they
append to the shared collections (waypoint readers also report their boolean
success); writers and the external `cGPSmapper` tool report success. -/
structure Env where
  openAirRead : String → List (Int × Airspace)
  openAipReadAirspaces : String → List (Int × Airspace)
  kmlReadKmz : String → List (Int × Airspace)
  kmlReadKml : String → List (Int × Airspace)
  seeYouRead : String → Bool × List (Int × Waypoint)
  openAipReadWaypoints : String → Bool × List (Int × Waypoint)
  writeKml : String → List (Int × Airspace) → List (Int × Waypoint) → Bool
  writeOpenAir : String → List (Int × Airspace) → Bool
  writeSeeYou : String → List (Int × Waypoint) → Bool
  writePolish : String → List (Int × Airspace) → Bool
  cGPSmapper : String → String → Bool
  isDirectory : String → Bool
  listDirectory : String → List DirEntry

/-- The mutable members of `AirspaceConverter` this core reads and writes
(the terrain-map list and the output-tuning flags are consumed only by the
out-of-scope KML/OpenAir writers and are omitted). -/
structure ConverterState where
  airspaces : List (Int × Airspace) := []
  waypoints : List (Int × Waypoint) := []
  airspaceFiles : List String := []
  waypointFiles : List String := []
  outputFile : String := ""
  conversionDone : Bool := false
deriving DecidableEq

/-- The state after the `AirspaceConverter` constructor. -/
def initialState : ConverterState := {}

/-- Modelled from the spec: `AddAirspaceFile` (declared in the missing
header) appends to the pending airspace-input file list. -/
def AddAirspaceFile (f : String) (st : ConverterState) : ConverterState :=
  { st with airspaceFiles := st.airspaceFiles ++ [f] }

/-- Modelled from the spec: `AddWaypointFile` (declared in the missing
header) appends to the pending waypoint-input file list. -/
def AddWaypointFile (f : String) (st : ConverterState) : ConverterState :=
  { st with waypointFiles := st.waypointFiles ++ [f] }

/-- The per-file loop of `LoadAirspaces`, acting on the pair
(airspace collection, output file) — the only state the loop body writes.
`initial` is the collection size recorded before the loop. -/
def loadAspLoop (env : Env) (suggested : OutputType) (initial : Nat) :
    List String → List (Int × Airspace) × String → List (Int × Airspace) × String
  | [], acc => acc
  | f :: rest, acc =>
    let ext := extensionOf f
    let read? : Option (List (Int × Airspace)) :=
      if iequals ext ".txt" then some (env.openAirRead f)
      else if iequals ext ".aip" then some (env.openAipReadAirspaces f)
      else if iequals ext ".kmz" then some (env.kmlReadKmz f)
      else if iequals ext ".kml" then some (env.kmlReadKml f)
      else none  -- warn: unknown extension, `continue`
    match read? with
    | none => loadAspLoop env suggested initial rest acc
    | some added =>
      let asps := acc.1 ++ added
      let out :=
        if asps.length > initial ∧ acc.2 = "" then
          match suggested with
          | OpenAir_Format => replaceExtension f ".txt"
          | Polish_Format => replaceExtension f ".mp"
          | Garmin_Format => replaceExtension f ".img"
          | _ => replaceExtension f ".kmz"  -- KMZ default (and the asserting `default:` falls through to it)
        else acc.2
      loadAspLoop env suggested initial rest (asps, out)

/-- Model of `AirspaceConverter::LoadAirspaces` (the C++ default argument for the
suggested output type is `KMZ_Format`, passed explicitly at call sites). -/
def LoadAirspaces (env : Env) (suggestedTypeForOutputFilename : OutputType)
    (st : ConverterState) : ConverterState :=
  if st.airspaceFiles.isEmpty then st
  else
    let r := loadAspLoop env suggestedTypeForOutputFilename st.airspaces.length
      st.airspaceFiles (st.airspaces, st.outputFile)
    { st with conversionDone := false, airspaces := r.1, outputFile := r.2,
              airspaceFiles := [] }

/-- Model of `AirspaceConverter::UnloadAirspaces`. -/
def UnloadAirspaces (st : ConverterState) : ConverterState :=
  { st with conversionDone := false, airspaces := [], outputFile := "" }

/-- The per-file loop of `LoadWaypoints`, acting on
(waypoint collection, output file, success counter). -/
def loadWptLoop (env : Env) :
    List String → List (Int × Waypoint) × String × Nat →
    List (Int × Waypoint) × String × Nat
  | [], acc => acc
  | f :: rest, acc =>
    let ext := extensionOf f
    let read? : Option (Bool × List (Int × Waypoint)) :=
      if iequals ext ".cup" then some (env.seeYouRead f)
      else if iequals ext ".aip" then some (env.openAipReadWaypoints f)
      else none  -- warn: unknown extension, `continue`
    match read? with
    | none => loadWptLoop env rest acc
    | some (readOk, added) =>
      let wpts := acc.1 ++ added
      let counter := if readOk then acc.2.2 + 1 else acc.2.2
      let out := if readOk ∧ acc.2.1 = "" then replaceExtension f ".kmz" else acc.2.1
      loadWptLoop env rest (wpts, out, counter)

/-- Model of `AirspaceConverter::LoadWaypoints`. -/
def LoadWaypoints (env : Env) (st : ConverterState) : ConverterState :=
  if st.waypointFiles.isEmpty then st
  else
    let r := loadWptLoop env st.waypointFiles (st.waypoints, st.outputFile, 0)
    { st with conversionDone := false, waypoints := r.1, outputFile := r.2.1,
              waypointFiles := [] }

/-- Model of `AirspaceConverter::UnloadWaypoints` (the per-entry `delete` releases
ownership; the collection is cleared, and the output file only when no
airspaces remain loaded). -/
def UnloadWaypoints (st : ConverterState) : ConverterState :=
  { st with conversionDone := false, waypoints := [],
            outputFile := if st.airspaces.isEmpty then "" else st.outputFile }

/-- Modelled from the spec: `GetOutputType` (declared in the missing header)
resolves the output format from the output path's extension. -/
def GetOutputType (st : ConverterState) : OutputType :=
  DetermineType st.outputFile

/-- The success computed by the `switch` of `Convert`: each branch assigns
`conversionDone` exactly its writer's (or, for Garmin, the Polish writer's
then `cGPSmapper`'s) result; the `default:` branch logs and leaves it false.  -/
def convertSucceeds (env : Env) (st : ConverterState) : Bool :=
  match GetOutputType st with
  | KMZ_Format => env.writeKml st.outputFile st.airspaces st.waypoints
  | OpenAir_Format => env.writeOpenAir st.outputFile st.airspaces
  | SeeYou_Format => env.writeSeeYou st.outputFile st.waypoints
  | Polish_Format => env.writePolish st.outputFile st.airspaces
  | Garmin_Format =>
    -- two-phase: first the intermediate Polish file, then cGPSmapper
    let polishFile := replaceExtension st.outputFile ".mp"
    if env.writePolish polishFile st.airspaces then
      env.cGPSmapper polishFile st.outputFile
    else false
  | Unknown_Format => false

/-- Model of `AirspaceConverter::Convert`: resets `conversionDone` on entry, runs the
writer dispatch, and returns the flag; collections and pending lists are
never touched. -/
def Convert (env : Env) (st : ConverterState) : Bool × ConverterState :=
  let r := convertSucceeds env st
  (r, { st with conversionDone := r })

/-! ## Geo filter

`Geometry::Limits` lives outside `src/`; its validation is modelled from the
spec, and the two containment tests are the geometry collaborator's boolean
answers, passed in as predicates. -/

/-- Modelled from the spec: `Geometry::Limits`, a bounding box of
top/bottom latitude and left/right longitude (coordinates as rationals). -/
structure LatLonLimits where
  top : Rat
  bottom : Rat
  left : Rat
  right : Rat
deriving DecidableEq

/-- Modelled from the spec: `Geometry::Limits::IsValid` — range and ordering
validation (latitudes within ±90 with bottom below top, longitudes within
±180); an invalid box is the designated non-filtering state. -/
def LatLonLimits.isValid (lim : LatLonLimits) : Bool :=
  decide (-90 ≤ lim.bottom) && decide (lim.bottom < lim.top) && decide (lim.top ≤ 90) &&
  decide (-180 ≤ lim.left) && decide (lim.left ≤ 180) &&
  decide (-180 ≤ lim.right) && decide (lim.right ≤ 180)

/-- Model of `AirspaceConverter::FilterOnLatLonLimits`.  `airspaceWithin` models
`Airspace::IsWithinLimits` and `positionWithin` models
`Limits::IsPositionWithinLimits` applied to the waypoint's position (both
collaborators outside this core); erase-while-iterating becomes `filter`. -/
def FilterOnLatLonLimits
    (airspaceWithin : LatLonLimits → Airspace → Bool)
    (positionWithin : LatLonLimits → Waypoint → Bool)
    (topLat bottomLat leftLon rightLon : Rat)
    (st : ConverterState) : Bool × ConverterState :=
  -- check if it is necessary to filter
  if topLat = 90 ∧ bottomLat = -90 ∧ leftLon = -180 ∧ rightLon = 180 then (true, st)
  else
    let limits : LatLonLimits := ⟨topLat, bottomLat, leftLon, rightLon⟩
    -- if no valid limits nothing to filter
    if !limits.isValid then (false, st)
    else
      let st :=
        if st.airspaces.isEmpty then st
        else { st with airspaces := st.airspaces.filter (fun p => airspaceWithin limits p.2) }
      let st :=
        if st.waypoints.isEmpty then st
        else { st with waypoints := st.waypoints.filter (fun p => positionWithin limits p.2) }
      (true, st)

/-! ## Batch directory pipeline (`ConvertOpenAIPdir`) -/

/-- The content tuple of the per-country index, in the order of the C++
`std::tuple`: (asp, hot, nav, wpt). -/
abbrev Content := Bool × Bool × Bool × Bool

/-- Lexicographic (byte) order on the country-code keys, as
`std::map<std::string, …>` keeps them. -/
def charListLt : List Char → List Char → Bool
  | [], [] => false
  | [], _ :: _ => true
  | _ :: _, [] => false
  | a :: as, b :: bs =>
    if a < b then true else if b < a then false else charListLt as bs

/-- Index insertion, `aipFilesIndex[countryCode] = newContent`, or the field-wise `||` merge
when the country is already present. -/
def mapInsertMerge (key : List Char) (c : Content) :
    List (List Char × Content) → List (List Char × Content)
  | [] => [(key, c)]
  | (k, v) :: rest =>
    if charListLt key k then (key, c) :: (k, v) :: rest
    else if key = k then
      (k, (v.1 || c.1, v.2.1 || c.2.1, v.2.2.1 || c.2.2.1, v.2.2.2 || c.2.2.2)) :: rest
    else (k, v) :: mapInsertMerge key c rest

/-- Classify one `.aip` file stem: `<2-letter country>_<content code>` with a
case-sensitive `ends_with` on the content code; `none` models the warned and
skipped filenames. -/
def aipEntryContent (stem : List Char) : Option (List Char × Content) :=
  if stem.length = 6 ∧ stem.getD 2 ' ' = '_' then
    let cc := stem.take 2
    if "asp".data.isSuffixOf stem then some (cc, (true, false, false, false))
    else if "wpt".data.isSuffixOf stem then some (cc, (false, false, false, true))
    else if "nav".data.isSuffixOf stem then some (cc, (false, false, true, false))
    else if "hot".data.isSuffixOf stem then some (cc, (false, true, false, false))
    else none  -- warn: content type not understood
  else none  -- warn: filename not <country code>_<content code>
def buildAipIndex (entries : List DirEntry) : List (List Char × Content) :=
  entries.foldl
    (fun idx e =>
      if e.isRegularFile && e.size != 0 && iequals (extensionOf e.path) ".aip" then
        match aipEntryContent (stemOf e.path).data with
        | some (cc, c) => mapInsertMerge cc c idx
        | none => idx
      else idx)
    []

/-- The `if (asp)` block of the per-country loop: load the airspace file and
convert it to an OpenAir text file. -/
def aspStep (env : Env) (dirPath cc : String) (asp : Bool) (st : ConverterState) :
    ConverterState :=
  if asp then
    let aspPath := joinPath dirPath (cc ++ "_asp.aip")
    let st := AddAirspaceFile aspPath st
    let st := LoadAirspaces env KMZ_Format st
    let st := { st with outputFile := replaceExtension aspPath ".txt" }
    (Convert env st).2
  else st

/-- The `if (wpt)` block: load the airfields file (remembering its path) and
convert it to a SeeYou file; returns (airfieldsFile, state). -/
def wptStep (env : Env) (dirPath cc : String) (wpt : Bool) (st : ConverterState) :
    String × ConverterState :=
  if wpt then
    let wptPath := joinPath dirPath (cc ++ "_wpt.aip")
    let airfieldsFile := wptPath
    let st := AddWaypointFile airfieldsFile st
    let st := LoadWaypoints env st
    let st := { st with outputFile := replaceExtension wptPath ".cup" }
    (airfieldsFile, (Convert env st).2)
  else ("", st)

/-- The `if (nav)` block: unload the airfields if any were loaded, then load
only the navaids and convert them to a SeeYou file. -/
def navStep (env : Env) (dirPath cc : String) (wpt nav : Bool) (st : ConverterState) :
    ConverterState :=
  if nav then
    let st := if wpt then UnloadWaypoints st else st
    let navPath := joinPath dirPath (cc ++ "_nav.aip")
    let st := AddWaypointFile navPath st
    let st := LoadWaypoints env st
    let st := { st with outputFile := replaceExtension navPath ".cup" }
    (Convert env st).2
  else st

/-- The reload block (`// In case airfields were unloaded reload them`) — guarded only by the
airfields file having been remembered. -/
def reloadStep (env : Env) (airfieldsFile : String) (st : ConverterState) :
    ConverterState :=
  if airfieldsFile ≠ "" then LoadWaypoints env (AddWaypointFile airfieldsFile st)
  else st

/-- The closing of the per-country loop body: the combined KMZ conversion
followed by the unconditional unloads. -/
def kmzStep (env : Env) (dirPath cc : String) (st : ConverterState) : ConverterState :=
  let st := { st with outputFile := joinPath dirPath (cc ++ ".kmz") }
  let st := (Convert env st).2
  UnloadWaypoints (UnloadAirspaces st)

/-- One iteration of the per-country loop of `ConvertOpenAIPdir`. -/
def processCountry (env : Env) (dirPath : String) (cc : List Char) (content : Content)
    (st : ConverterState) : ConverterState :=
  let asp := content.1
  -- content.2.1 is `hot`: indexed but never consumed, as in the source
  let nav := content.2.2.1
  let wpt := content.2.2.2
  let st := aspStep env dirPath ⟨cc⟩ asp st
  let p := wptStep env dirPath ⟨cc⟩ wpt st
  let st := navStep env dirPath ⟨cc⟩ wpt nav p.2
  let st := reloadStep env p.1 st
  kmzStep env dirPath ⟨cc⟩ st

/-- Model of `AirspaceConverter::ConvertOpenAIPdir`. -/
def ConvertOpenAIPdir (env : Env) (openAIPdir : String) (st : ConverterState) :
    Bool × ConverterState :=
  if openAIPdir = "" then (false, st)
  else if !env.isDirectory openAIPdir then (false, st)
  else
    let st := UnloadWaypoints (UnloadAirspaces st)
    let index := buildAipIndex (env.listDirectory openAIPdir)
    if index.isEmpty then (false, st)
    else
      (true, index.foldl (fun st r => processCountry env openAIPdir r.1 r.2 st) st)

/-- A collaborator record with inert components, for concrete runs. -/
def env0 : Env where
  openAirRead := fun _ => []
  openAipReadAirspaces := fun _ => []
  kmlReadKmz := fun _ => []
  kmlReadKml := fun _ => []
  seeYouRead := fun _ => (false, [])
  openAipReadWaypoints := fun _ => (false, [])
  writeKml := fun _ _ _ => false
  writeOpenAir := fun _ _ => false
  writeSeeYou := fun _ _ => false
  writePolish := fun _ _ => false
  cGPSmapper := fun _ _ => false
  isDirectory := fun _ => false
  listDirectory := fun _ => []

/-- Collaborators whose writers all succeed. -/
def envAllOk : Env :=
  { env0 with
    writeKml := fun _ _ _ => true
    writeOpenAir := fun _ _ => true
    writeSeeYou := fun _ _ => true
    writePolish := fun _ _ => true
    cGPSmapper := fun _ _ => true }

/-- Collaborators for the per-country pipeline runs: the openAIP waypoint
reader succeeds and yields one airfield named after the file it was read
from. -/
def envWptReader : Env :=
  { envAllOk with openAipReadWaypoints := fun f => (true, [(1, ⟨f⟩)]) }

/-- Collaborators exposing one directory `d` holding a single airspace
file. -/
def envDir : Env :=
  { env0 with
    isDirectory := fun p => p == "d"
    listDirectory := fun _ => [⟨"d/aa_asp.aip", true, 10⟩] }



/-! ## Lemmas about the path model -/

theorem takeWhile_append_all (p : Char → Bool) (l1 l2 : List Char)
    (h : ∀ a ∈ l1, p a = true) :
    (l1 ++ l2).takeWhile p = l1 ++ l2.takeWhile p := by
  induction l1 with
  | nil => simp
  | cons a as ih =>
    rw [List.cons_append, List.takeWhile_cons_of_pos (h a (by simp)),
      ih (fun b hb => h b (by simp [hb])), List.cons_append]

theorem afterLastSlash_append (l t : List Char) (h : '/' ∉ t) :
    afterLastSlash (l ++ t) = afterLastSlash l ++ t := by
  unfold afterLastSlash
  rw [List.reverse_append,
    takeWhile_append_all _ t.reverse l.reverse
      (fun a ha => by
        have : a ≠ '/' := fun hc => h (hc ▸ List.mem_reverse.mp ha)
        simpa using this),
    List.reverse_append, List.reverse_reverse]

theorem extCore_append (l t : List Char) (hne : t ≠ []) (hdot : '.' ∉ t)
    (hslash : '/' ∉ t) :
    extCore (l ++ ('.' :: t)) = '.' :: t := by
  have hs : '/' ∉ ('.' :: t) := by
    intro hc
    rcases List.mem_cons.mp hc with h | h
    · exact absurd h.symm (by decide)
    · exact hslash h
  have hf : afterLastSlash (l ++ ('.' :: t)) = afterLastSlash l ++ '.' :: t :=
    afterLastSlash_append l _ hs
  have htl : 1 ≤ t.length := List.length_pos.mpr hne
  unfold extCore
  rw [hf]
  rw [if_neg]
  · have hrev : (afterLastSlash l ++ '.' :: t).reverse
        = t.reverse ++ '.' :: (afterLastSlash l).reverse := by
      rw [List.reverse_append, List.reverse_cons, List.append_assoc]
      simp
    rw [hrev, takeWhile_append_all _ t.reverse _
        (fun a ha => by
          have : a ≠ '.' := fun hc => hdot (hc ▸ List.mem_reverse.mp ha)
          simpa using this),
      List.takeWhile_cons_of_neg (by simp)]
    simp
  · push_neg
    refine ⟨?_, ?_, ?_⟩
    · intro hc
      have := congrArg List.length hc
      simp at this
      omega
    · intro hc
      rcases g : afterLastSlash l with _ | ⟨c, g'⟩
      · rw [g] at hc
        simp at hc
        exact hdot (by simp [hc])
      · rw [g] at hc
        have := congrArg List.length hc
        simp at this
        omega
    · simp

theorem string_append_dotted_ne_empty (p : String) (t : List Char) :
    p ++ (⟨'.' :: t⟩ : String) ≠ "" := by
  intro h
  have hd := congrArg String.data h
  rw [String.data_append] at hd
  simp at hd

theorem extensionOf_string_append (p : String) (t : List Char) (hne : t ≠ [])
    (hdot : '.' ∉ t) (hslash : '/' ∉ t) :
    extensionOf (p ++ (⟨'.' :: t⟩ : String)) = ⟨'.' :: t⟩ := by
  unfold extensionOf
  rw [String.data_append]
  show (⟨extCore (p.data ++ '.' :: t)⟩ : String) = ⟨'.' :: t⟩
  rw [extCore_append p.data t hne hdot hslash]

theorem determineType_ext (s : String) (h : s ≠ "") :
    DetermineType s =
      (if iequals (extensionOf s) ".kmz" then KMZ_Format
       else if iequals (extensionOf s) ".txt" then OpenAir_Format
       else if iequals (extensionOf s) ".cup" then SeeYou_Format
       else if iequals (extensionOf s) ".mp" then Polish_Format
       else if iequals (extensionOf s) ".img" then Garmin_Format
       else Unknown_Format) := by
  unfold DetermineType
  rw [if_neg h]

theorem determineType_congr_ext (x y : String) (hx : x ≠ "") (hy : y ≠ "")
    (h : extensionOf x = extensionOf y) : DetermineType x = DetermineType y := by
  rw [determineType_ext x hx, determineType_ext y hy, h]

theorem replaceExtension_eq_append (s : String) (t : List Char) :
    replaceExtension s ⟨'.' :: t⟩
      = (⟨s.data.take (s.data.length - (extCore s.data).length)⟩ : String)
          ++ (⟨'.' :: t⟩ : String) := by
  unfold replaceExtension replaceExtCore
  apply congrArg String.mk
  rfl

theorem determineType_replaceExt (s : String) (t : List Char) (hne : t ≠ [])
    (hdot : '.' ∉ t) (hslash : '/' ∉ t) :
    DetermineType (replaceExtension s ⟨'.' :: t⟩) = DetermineType ⟨'.' :: t⟩ := by
  rw [replaceExtension_eq_append]
  apply determineType_congr_ext
  · exact string_append_dotted_ne_empty _ t
  · intro hc
    have := congrArg String.data hc
    simp at this
  · rw [extensionOf_string_append _ t hne hdot hslash]
    show _ = (⟨extCore ('.' :: t)⟩ : String)
    have : extCore ('.' :: t) = extCore ([] ++ '.' :: t) := by simp
    rw [this, extCore_append [] t hne hdot hslash]

/-- C4: for every non-empty path and every recognized type the extension
rewrite succeeds and resolving the rewritten path's type returns the same
type (round-trip); the rewrite fails for the Unknown type and for an empty
path. -/
theorem C4_roundtrip :
    (∀ (s : String) (t : OutputType), s ≠ "" → t ≠ Unknown_Format →
      (PutTypeExtension t s).map DetermineType = some t) ∧
    (∀ s : String, PutTypeExtension Unknown_Format s = none) ∧
    (∀ t : OutputType, PutTypeExtension t "" = none) := by
  refine ⟨?_, ?_, ?_⟩
  · intro s t hs ht
    cases t with
    | KMZ_Format =>
      unfold PutTypeExtension
      rw [if_neg hs]
      show some (DetermineType (replaceExtension s ".kmz")) = _
      have e : (".kmz" : String) = ⟨'.' :: ['k', 'm', 'z']⟩ := rfl
      rw [e, determineType_replaceExt s _ (by decide) (by decide) (by decide)]
      decide
    | OpenAir_Format =>
      unfold PutTypeExtension
      rw [if_neg hs]
      show some (DetermineType (replaceExtension s ".txt")) = _
      have e : (".txt" : String) = ⟨'.' :: ['t', 'x', 't']⟩ := rfl
      rw [e, determineType_replaceExt s _ (by decide) (by decide) (by decide)]
      decide
    | SeeYou_Format =>
      unfold PutTypeExtension
      rw [if_neg hs]
      show some (DetermineType (replaceExtension s ".cup")) = _
      have e : (".cup" : String) = ⟨'.' :: ['c', 'u', 'p']⟩ := rfl
      rw [e, determineType_replaceExt s _ (by decide) (by decide) (by decide)]
      decide
    | Polish_Format =>
      unfold PutTypeExtension
      rw [if_neg hs]
      show some (DetermineType (replaceExtension s ".mp")) = _
      have e : (".mp" : String) = ⟨'.' :: ['m', 'p']⟩ := rfl
      rw [e, determineType_replaceExt s _ (by decide) (by decide) (by decide)]
      decide
    | Garmin_Format =>
      unfold PutTypeExtension
      rw [if_neg hs]
      show some (DetermineType (replaceExtension s ".img")) = _
      have e : (".img" : String) = ⟨'.' :: ['i', 'm', 'g']⟩ := rfl
      rw [e, determineType_replaceExt s _ (by decide) (by decide) (by decide)]
      decide
    | Unknown_Format => exact absurd rfl ht
  · intro s
    unfold PutTypeExtension
    split <;> rfl
  · intro t
    unfold PutTypeExtension
    rw [if_pos rfl]

/-- C4 (witness): the round-trip at a concrete path and type. -/
theorem C4_witness :
    ("dir/a.kmz" : String) ≠ "" ∧ OpenAir_Format ≠ Unknown_Format ∧
      (PutTypeExtension OpenAir_Format "dir/a.kmz").map DetermineType
        = some OpenAir_Format :=
  ⟨by decide, by decide,
    C4_roundtrip.1 "dir/a.kmz" OpenAir_Format (by decide) (by decide)⟩

/-! ## Claim C5 -/

/-- C6: the normalized successful parses — FL100 as flight level 100,
2000ft AGL as 2000 feet AGL, bare GND/SFC as 0 feet AGL with value, type
and unit all resolved, the UNLIM family as unlimited, and 3500 AMSL as
3500 feet AMSL by the feet/AMSL defaults. -/
theorem C6_parse_successes :
    parseAltitudeValue "FL100" = some (.flightLevel 100) ∧
    parseAltitudeValue "2000ft AGL" = some (.altFt 2000 false) ∧
    parseAltitudeValue "GND" = some (.altFt 0 false) ∧
    parseAltitudeValue "SFC" = some (.altFt 0 false) ∧
    (ParseAltitudeState "GND").map (fun st => (st.valueFound, st.typeFound, st.unitFound))
      = some (true, true, true) ∧
    (ParseAltitudeState "SFC").map (fun st => (st.valueFound, st.typeFound, st.unitFound))
      = some (true, true, true) ∧
    parseAltitudeValue "UNLIM" = some .unlimited ∧
    parseAltitudeValue "UNLIMITED" = some .unlimited ∧
    parseAltitudeValue "UNL" = some .unlimited ∧
    parseAltitudeValue "3500 AMSL" = some (.altFt 3500 true) := by
  decide

/-! ## Claim C9 -/

/-- C9: every input of length exactly one fails the parse (the scan loop
starts at index 1 and never runs, so no value is ever captured), including
the single digit "5" that the spec's grammar would accept; the airspace is
left untouched. -/
theorem C9_single_char_fails :
    (∀ c : Char, ParseAltitudeState ⟨[c]⟩ = none) ∧
    (∀ (c : Char) (isTop : Bool) (a : Airspace),
      ParseAltitude ⟨[c]⟩ isTop a = (false, a)) ∧
    parseAltitudeValue "5" = none := by
  refine ⟨fun c => rfl, fun c isTop a => ?_, by decide⟩
  simp [ParseAltitude, show ParseAltitudeState ⟨[c]⟩ = none from rfl]

/-! ## Claim C1 -/

/-- C1 (counterexample): after a successful Convert, a LoadAirspaces call
with an empty pending-file list returns early and leaves the completion
flag true, so the flag is not false after every LoadAirspaces call. -/
theorem C1_counterexample :
    (LoadAirspaces envAllOk KMZ_Format
      (Convert envAllOk { initialState with outputFile := "a.kmz" }).2).conversionDone
      = true := by
  decide

/-- C1 (amended): every Unload resets the completion flag to false; a Load
resets it to false when its pending-file list is nonempty and otherwise
returns early leaving it unchanged; Convert leaves the flag exactly at the
success it reports, which is its writer's (or external tool's) result. -/
theorem C1_completion_flag :
    ∀ (env : Env) (t : OutputType) (st : ConverterState),
      (UnloadAirspaces st).conversionDone = false ∧
      (UnloadWaypoints st).conversionDone = false ∧
      (LoadAirspaces env t st).conversionDone
        = (st.airspaceFiles.isEmpty && st.conversionDone) ∧
      (LoadWaypoints env st).conversionDone
        = (st.waypointFiles.isEmpty && st.conversionDone) ∧
      (Convert env st).2.conversionDone = (Convert env st).1 ∧
      (Convert env st).1 = convertSucceeds env st := by
  intro env t st
  refine ⟨rfl, rfl, ?_, ?_, rfl, rfl⟩
  · unfold LoadAirspaces
    cases h : st.airspaceFiles.isEmpty <;> simp [h]
  · unfold LoadWaypoints
    cases h : st.waypointFiles.isEmpty <;> simp [h]

/-! ## Claim C10 -/

/-- C10: UnloadAirspaces clears the output path unconditionally, while
UnloadWaypoints clears it only when the airspace collection is empty; apart
from the output path and the completion flag each Unload changes only its
own collection. -/
theorem C10_unload_frame :
    ∀ st : ConverterState,
      (UnloadAirspaces st).outputFile = "" ∧
      (UnloadAirspaces st).airspaces = [] ∧
      (UnloadAirspaces st).waypoints = st.waypoints ∧
      (UnloadAirspaces st).airspaceFiles = st.airspaceFiles ∧
      (UnloadAirspaces st).waypointFiles = st.waypointFiles ∧
      (UnloadWaypoints st).outputFile
        = (if st.airspaces.isEmpty then "" else st.outputFile) ∧
      (UnloadWaypoints st).waypoints = [] ∧
      (UnloadWaypoints st).airspaces = st.airspaces ∧
      (UnloadWaypoints st).airspaceFiles = st.airspaceFiles ∧
      (UnloadWaypoints st).waypointFiles = st.waypointFiles :=
  fun _ => ⟨rfl, rfl, rfl, rfl, rfl, rfl, rfl, rfl, rfl, rfl⟩

/-! ## Claim C7 -/

/-- C7: the exact full-globe box is a designated no-op returning success
with both collections untouched, and any box failing validation returns
failure with both collections untouched — for every geometry collaborator. -/
theorem C7_filter_bounds :
    ∀ (airspaceWithin : LatLonLimits → Airspace → Bool)
      (positionWithin : LatLonLimits → Waypoint → Bool) (st : ConverterState),
      FilterOnLatLonLimits airspaceWithin positionWithin 90 (-90) (-180) 180 st
        = (true, st) ∧
      (∀ t b l r : Rat, LatLonLimits.isValid ⟨t, b, l, r⟩ = false →
        FilterOnLatLonLimits airspaceWithin positionWithin t b l r st = (false, st)) := by
  intro aw pw st
  constructor
  · unfold FilterOnLatLonLimits
    rw [if_pos ⟨rfl, rfl, rfl, rfl⟩]
  · intro t b l r h
    have hfg : ¬(t = 90 ∧ b = -90 ∧ l = -180 ∧ r = 180) := by
      rintro ⟨h1, h2, h3, h4⟩
      subst h1; subst h2; subst h3; subst h4
      exact absurd h (by decide)
    unfold FilterOnLatLonLimits
    rw [if_neg hfg]
    simp [h]

/-- C7 (witness): an invalid box (bottom above top) at a concrete state. -/
theorem C7_witness :
    LatLonLimits.isValid ⟨0, 10, 0, 0⟩ = false ∧
      FilterOnLatLonLimits (fun _ _ => true) (fun _ _ => true) 0 10 0 0 initialState
        = (false, initialState) :=
  ⟨by decide,
    (C7_filter_bounds (fun _ _ => true) (fun _ _ => true) initialState).2 0 10 0 0
      (by decide)⟩

/-! ## Claim C2 -/

/-- C2: with a wpt file present but no nav file, the waypoint collection the
per-country sequence hands to the combined KMZ conversion holds the
airfields file's contents twice — the reload block runs whenever the
airfields file was remembered, not only when the airfields were unloaded for
the navaids step, so each airfield is duplicated in the combined output. -/
theorem C2_airfields_read_twice :
    (reloadStep envWptReader (wptStep envWptReader "d" "aa" true initialState).1
      (navStep envWptReader "d" "aa" true false
        (wptStep envWptReader "d" "aa" true initialState).2)).waypoints
    = [(1, ⟨"d/aa_wpt.aip"⟩), (1, ⟨"d/aa_wpt.aip"⟩)] := by
  decide

/-! ## Claim C8 -/

/-- C8: ConvertOpenAIPdir returns true exactly when the path is a directory
and the scan yields a nonempty per-country index; per-country conversion
results never influence the return value (the writers in env are
arbitrary). -/
theorem C8_convert_directory :
    ∀ (env : Env) (path : String) (st : ConverterState),
      env.isDirectory "" = false →
      ((ConvertOpenAIPdir env path st).1 = true ↔
        (env.isDirectory path = true ∧
          buildAipIndex (env.listDirectory path) ≠ [])) := by
  intro env path st h
  unfold ConvertOpenAIPdir
  by_cases hp : path = ""
  · subst hp
    rw [if_pos rfl]
    simp [h]
  · rw [if_neg hp]
    cases hd : env.isDirectory path with
    | false => simp [hd]
    | true =>
      simp only [hd, Bool.not_true, Bool.false_eq_true, if_false]
      split
      next hempty => simp_all [List.isEmpty_iff]
      next hnon => simp_all [List.isEmpty_iff]

/-- C8 (witness): a directory with one valid airspace file. -/
theorem C8_witness :
    envDir.isDirectory "" = false ∧
      ((ConvertOpenAIPdir envDir "d" initialState).1 = true ↔
        (envDir.isDirectory "d" = true ∧
          buildAipIndex (envDir.listDirectory "d") ≠ [])) :=
  ⟨by decide, C8_convert_directory envDir "d" initialState (by decide)⟩
